import Mathlib

/-!
Verification of the `hooks-observations` observer-orchestration module
(`src/modules/hooks-observations/amplifier_module_hooks_observations/__init__.py`).

The Python code manipulates untyped JSON-like dictionaries, so the embedding
works over an inductive `JVal` of Python/JSON values, with helper functions
reproducing the Python operations the module uses (`dict.get`, truthiness,
slicing, `in`, iteration, `str()`), each raising the exception the Python
operation would raise, modelled with `Except PyErr`.

External library calls that the module treats as opaque are oracles passed as
function parameters: `md5` for `hashlib.md5(...).hexdigest()`, `decode` for
`json.loads` (`none` models `json.JSONDecodeError`), `regexSearch` for the
`re.search` over the fixed observations pattern, and `glob` for
`glob(pattern, recursive=True)` composed with the `os.path.isfile` filter and
a successful `os.stat` (all operating-system calls).
-/

namespace Observers

/-- Python/JSON value as manipulated by the module: the dicts flowing between
the parser, aggregator and store are untyped, so they are modelled as a
JSON-like inductive.  Objects are association lists in insertion order, as
Python dicts preserve insertion order. -/
inductive JVal where
  | null
  | bool (b : Bool)
  | num (n : Int)
  | str (s : String)
  | arr (elems : List JVal)
  | obj (fields : List (String × JVal))
deriving Repr

mutual

/-- Structural equality on `JVal`, modelling Python `==` between JSON values. -/
def JVal.beq : JVal → JVal → Bool
  | .null, .null => true
  | .bool a, .bool b => a == b
  | .num a, .num b => a == b
  | .str a, .str b => a == b
  | .arr xs, .arr ys => JVal.beqList xs ys
  | .obj xs, .obj ys => JVal.beqFields xs ys
  | _, _ => false

/-- Elementwise equality of `JVal` lists. -/
def JVal.beqList : List JVal → List JVal → Bool
  | [], [] => true
  | x :: xs, y :: ys => JVal.beq x y && JVal.beqList xs ys
  | _, _ => false

/-- Fieldwise equality of `JVal` object fields. -/
def JVal.beqFields : List (String × JVal) → List (String × JVal) → Bool
  | [], [] => true
  | (k, v) :: xs, (l, w) :: ys => k == l && JVal.beq v w && JVal.beqFields xs ys
  | _, _ => false

end

instance : BEq JVal := ⟨JVal.beq⟩

/-- Exceptions the embedded Python code can raise. -/
inductive PyErr where
  | typeError (msg : String)
  | attributeError (msg : String)
  | timeoutError
deriving Repr, BEq, DecidableEq

/-- Lookup of a key in an object's field list (first match, as in a dict). -/
def objGet? (fs : List (String × JVal)) (k : String) : Option JVal :=
  match fs with
  | [] => none
  | (k', v) :: rest => if k' = k then some v else objGet? rest k

/-- Dict lookup with default, `fields.get(k, d)` on a known dict. -/
def objGetD (fs : List (String × JVal)) (k : String) (d : JVal) : JVal :=
  (objGet? fs k).getD d

/-- Key-presence test on an object's field list. -/
def objHasKey (fs : List (String × JVal)) (k : String) : Bool :=
  (objGet? fs k).isSome

/-- Dict assignment `d[k] = v`: replaces the value in place if the key exists,
otherwise appends the pair, as Python dicts do. -/
def objSet (fs : List (String × JVal)) (k : String) (v : JVal) : List (String × JVal) :=
  match fs with
  | [] => [(k, v)]
  | (k', v') :: rest => if k' = k then (k', v) :: rest else (k', v') :: objSet rest k v

/-- Python `dict.setdefault(k, v)`: inserts `v` only when `k` is absent. -/
def objSetDefault (fs : List (String × JVal)) (k : String) (v : JVal) : List (String × JVal) :=
  if objHasKey fs k then fs else fs ++ [(k, v)]

/-- Python truthiness of a value (`if v:`). -/
def pyTruthy : JVal → Bool
  | .null => false
  | .bool b => b
  | .num n => n != 0
  | .str s => !s.data.isEmpty
  | .arr xs => !xs.isEmpty
  | .obj fs => !fs.isEmpty

/-- Python `str()` of a value, as interpolated by f-strings.  Exact for the
scalar values the module formats; composite values are given a fixed rendering
(the code only ever formats them when an observer emitted an unexpected shape,
and no property here depends on that rendering beyond it being a function). -/
def pyStr : JVal → String
  | .null => "None"
  | .bool true => "True"
  | .bool false => "False"
  | .num n => toString n
  | .str s => s
  | .arr xs => "<list of " ++ toString xs.length ++ ">"
  | .obj fs => "<dict of " ++ toString fs.length ++ ">"

/-- Python `v.get(k, d)`: dict lookup with default; raises `AttributeError`
when `v` is not a dict. -/
def pyGetD (v : JVal) (k : String) (d : JVal) : Except PyErr JVal :=
  match v with
  | .obj fs => .ok (objGetD fs k d)
  | _ => .error (.attributeError "object has no attribute get")

/-- Python `len(v)`: defined for strings, lists and dicts; raises `TypeError`
otherwise. -/
def pyLen (v : JVal) : Except PyErr Nat :=
  match v with
  | .str s => .ok s.length
  | .arr xs => .ok xs.length
  | .obj fs => .ok fs.length
  | _ => .error (.typeError "object has no len")

/-- Python slice `v[:n]`: defined for strings and lists; raises `TypeError`
for unsliceable values (ints, dicts, None, bools). -/
def pySliceTake (v : JVal) (n : Nat) : Except PyErr JVal :=
  match v with
  | .str s => .ok (.str (String.mk (s.data.take n)))
  | .arr xs => .ok (.arr (xs.take n))
  | _ => .error (.typeError "object is not subscriptable")

/-- Python slice `v[-n:]` (last `n` items): strings and lists only. -/
def pySliceLast (v : JVal) (n : Nat) : Except PyErr JVal :=
  match v with
  | .str s => .ok (.str (String.mk (s.data.drop (s.data.length - n))))
  | .arr xs => .ok (.arr (xs.drop (xs.length - n)))
  | _ => .error (.typeError "object is not subscriptable")

/-- Python iteration `for x in v`: lists yield elements, strings yield
characters, dicts yield their keys; other values raise `TypeError`. -/
def pyIter (v : JVal) : Except PyErr (List JVal) :=
  match v with
  | .arr xs => .ok xs
  | .str s => .ok (s.data.map fun c => .str (String.mk [c]))
  | .obj fs => .ok (fs.map fun kv => .str kv.1)
  | _ => .error (.typeError "object is not iterable")

/-- Characters stripped by Python's `str.strip()` with no argument. -/
def isPySpace (c : Char) : Bool :=
  c = ' ' || c = '\t' || c = '\n' || c = '\r' || c = '\x0b' || c = '\x0c'

/-- Python `s.strip()`: leading and trailing whitespace removed. -/
def pyStrip (s : String) : String :=
  String.mk (((s.data.dropWhile isPySpace).reverse.dropWhile isPySpace).reverse)

/-- Python `s.startswith(pat)`. -/
def pyStartsWith (s pat : String) : Bool :=
  s.data.take pat.data.length == pat.data

/-- Python `s.split()` with no argument: split on whitespace runs, no empty
words.  `current` accumulates the characters of the word in progress in
reverse. -/
def splitWsAux (current : List Char) : List Char → List String
  | [] => if current.isEmpty then [] else [String.mk current.reverse]
  | c :: rest =>
      if isPySpace c then
        if current.isEmpty then splitWsAux [] rest
        else String.mk current.reverse :: splitWsAux [] rest
      else splitWsAux (c :: current) rest

/-- Python `s.split()` with no argument. -/
def splitWs (s : String) : List String := splitWsAux [] s.data

/-- ASCII lowering of one character (Python's `str.lower()` also lowers
non-ASCII letters; the content this is applied to only feeds the hash
oracle, where only determinism matters). -/
def asciiLower (c : Char) : Char :=
  if 'A' ≤ c && c ≤ 'Z' then Char.ofNat (c.toNat + 32) else c

/-- Python `s.lower()` restricted to ASCII letters. -/
def strLower (s : String) : String :=
  String.mk (s.data.map asciiLower)

/-- Number of non-overlapping left-to-right occurrences of a nonempty
pattern, Python `s.count(pat)`.  `skip` counts characters still to consume
from a matched occurrence. -/
def countOccsGo (pat : List Char) : List Char → Nat → Nat
  | [], _ => 0
  | _ :: rest, skip + 1 => countOccsGo pat rest skip
  | c :: rest, 0 =>
      if (c :: rest).take pat.length == pat && !pat.isEmpty then
        1 + countOccsGo pat rest (pat.length - 1)
      else countOccsGo pat rest 0

/-- Number of non-overlapping occurrences of a nonempty pattern. -/
def countOccs (s pat : String) : Nat :=
  countOccsGo pat.data s.data 0

/-- Occurrences test `pat in s` for a nonempty pattern. -/
def strContainsSub (s pat : String) : Bool :=
  countOccs s pat > 0

/-- Python `s.replace(pat, rep)` for a nonempty pattern: non-overlapping
left-to-right replacement (the module only replaces the fixed placeholder
token).  `skip` counts characters still to consume from a matched
occurrence. -/
def pyReplaceGo (pat rep : List Char) : List Char → Nat → List Char
  | [], _ => []
  | _ :: rest, skip + 1 => pyReplaceGo pat rep rest skip
  | c :: rest, 0 =>
      if (c :: rest).take pat.length == pat && !pat.isEmpty then
        rep ++ pyReplaceGo pat rep rest (pat.length - 1)
      else c :: pyReplaceGo pat rep rest 0

/-- Python `s.replace(pat, rep)` for a nonempty pattern. -/
def pyReplace (s pat rep : String) : String :=
  String.mk (pyReplaceGo pat.data rep.data s.data 0)

/-- Python `k in v` membership test: key for dicts, element equality for
lists, substring for strings; raises `TypeError` otherwise. -/
def pyContainsStr (k : String) (v : JVal) : Except PyErr Bool :=
  match v with
  | .obj fs => .ok (objHasKey fs k)
  | .arr xs => .ok (xs.any fun x => x == JVal.str k)
  | .str s => .ok (strContainsSub s k)
  | _ => .error (.typeError "argument of this type is not iterable")

/-- Python `v[k]` with a string key: dict subscription; lists and strings
raise `TypeError` for string indices, other values are not subscriptable. -/
def pySubscriptStr (v : JVal) (k : String) : Except PyErr JVal :=
  match v with
  | .obj fs => .ok (objGetD fs k .null)
  | _ => .error (.typeError "indices must be integers or subscript unsupported")

/-- Python `v == s` against a string literal: only equal strings compare
equal (no cross-type equality for these values). -/
def pyEqStr (v : JVal) (s : String) : Bool :=
  match v with
  | .str s' => s' = s
  | _ => false

/-- First `n` characters of a string, Python `s[:n]`. -/
def strTake (s : String) (n : Nat) : String :=
  String.mk (s.data.take n)

/-- Index of the first occurrence of `pat` in `hay` (character index), or
`none`. -/
def findSubAux (hay pat : List Char) (i : Nat) : Option Nat :=
  match hay with
  | [] => if pat = [] then some i else none
  | _ :: rest =>
      if hay.take pat.length = pat then some i else findSubAux rest pat (i + 1)

/-- Python `s.find(pat, start)`: index of the first occurrence at or after
`start`, or `-1`. -/
def pyFind (s pat : String) (start : Nat) : Int :=
  match findSubAux (s.data.drop start) pat.data 0 with
  | some i => Int.ofNat (start + i)
  | none => -1

/-- Python slice `s[a:b]` on character indices (for `0 ≤ a ≤ b`). -/
def strSlice (s : String) (a b : Nat) : String :=
  String.mk ((s.data.drop a).take (b - a))

/-! ## Result parser (`_parse_observer_result`, lines 603-699) -/

/-- Markdown and regex extraction step of `_parse_observer_result`
(lines 640-665): strip a ```` ```json ````-fenced block, else a plain fenced
block, then, if the stripped text does not start with a brace, try the regex
search for an object containing `"observations"` (the `re.search` call is the
`regexSearch` oracle, returning `group(0)` of a match). -/
def extractJsonText (regexSearch : String → Option String) (text : String) : String :=
  let jsonText := text
  let jsonText :=
    if strContainsSub jsonText "```json" then
      let start := (pyFind jsonText "```json" 0 + 7).toNat
      let stop := pyFind jsonText "```" start
      if stop > Int.ofNat start then pyStrip (strSlice jsonText start stop.toNat) else jsonText
    else if strContainsSub jsonText "```" then
      let start := (pyFind jsonText "```" 0 + 3).toNat
      let stop := pyFind jsonText "```" start
      if stop > Int.ofNat start then pyStrip (strSlice jsonText start stop.toNat) else jsonText
    else jsonText
  if !(pyStartsWith (pyStrip jsonText) "\x7b") then
    match regexSearch jsonText with
    | some m => m
    | none => jsonText
  else jsonText

/-- The `return \x7b"observations": []\x7d` result of the parser. -/
def emptyObsDict : JVal := .obj [("observations", .arr [])]

/-- The `\x7b"observations": [], "resolved": []\x7d` sentinel returned for an
unloaded observer and as the base of error sentinels. -/
def emptyObsResolved : JVal := .obj [("observations", .arr []), ("resolved", .arr [])]

/-- Timeout sentinel of `_spawn_observer` when `on_timeout == "skip"`. -/
def timeoutSentinel : JVal :=
  .obj [("observations", .arr []), ("resolved", .arr []), ("error", .str "timeout")]

/-- Error sentinel of `_spawn_observer` for a non-timeout exception. -/
def errorSentinel (msg : String) : JVal :=
  .obj [("observations", .arr []), ("resolved", .arr []), ("error", .str msg)]

/-- Fallback observation built by the parser on JSON decode failure for
substantive text (lines 685-697), with the keys in source order. -/
def fallbackResult (name text : String) : JVal :=
  .obj [("observations", .arr [ .obj [
      ("observer", .str name),
      ("content", .str (strTake text 500)),
      ("severity", .str "info"),
      ("status", .str "open"),
      ("source_type", .str "unknown"),
      ("metadata", .obj [("parse_error", .bool true)]) ] ])]

/-- Per-observation mutation applied on parse success (lines 673-677):
`obs["observer"] = name` then `setdefault` for `status`, `source_type` and
`metadata`; item assignment on a non-dict raises `TypeError`. -/
def decorateObs (name : String) (v : JVal) : Except PyErr JVal :=
  match v with
  | .obj fs =>
      let fs := objSet fs "observer" (.str name)
      let fs := objSetDefault fs "status" (.str "open")
      let fs := objSetDefault fs "source_type" (.str "mixed")
      let fs := objSetDefault fs "metadata" (.obj [])
      .ok (.obj fs)
  | _ => .error (.typeError "object does not support item assignment")

/-- Model of `_parse_observer_result` on a string result.  `decode` is the `json.loads`
oracle (`none` models `json.JSONDecodeError`, the only exception the
`except` clause catches).  On decode failure the fallback applies iff the
stripped text is longer than 50 characters and the raw text does not start
with `No issues`; on success, an `"observations"` key leads to decoration and
a defaulted `"resolved"`, and its absence falls through to the empty result.
Exceptions raised by the membership test, subscription or iteration on
non-dict shapes propagate (they are not `JSONDecodeError`). -/
def parseObserverResult (decode : String → Option JVal)
    (regexSearch : String → Option String) (text name : String) : Except PyErr JVal :=
  let jsonText := extractJsonText regexSearch text
  match decode jsonText with
  | none =>
      if 50 < (pyStrip text).length && !(pyStartsWith text "No issues") then
        .ok (fallbackResult name text)
      else
        .ok emptyObsDict
  | some data => do
      let hasObs ← pyContainsStr "observations" data
      if hasObs then
        let obsVal ← pySubscriptStr data "observations"
        let obsList ← pyIter obsVal
        let newObs ← obsList.mapM (decorateObs name)
        match data with
        | .obj fs =>
            let fs := objSet fs "observations" (.arr newObs)
            let fs := objSetDefault fs "resolved" (.arr [])
            pure (.obj fs)
        | _ => .error (.typeError "subscription succeeded on a non-dict")
      else
        pure emptyObsDict

/-! ## Deduplication key (`_observation_key`, lines 736-765) -/

/-- Whitespace normalisation of the content fallback:
`" ".join(content.lower().split())[:100]`. -/
def normalizeContent (content : String) : String :=
  strTake (String.intercalate " " (splitWs (strLower content))) 100

/-- Model of `_observation_key`: deduplication key of an observation dict.  `md5 s`
is the oracle for `hashlib.md5(s.encode()).hexdigest()`.  Raises when
`metadata` is a truthy non-dict (`.get` on it) or, on the fallback branch,
when `content` is not a string (`.lower()` on it), exactly as the Python
attribute accesses would. -/
def observationKey (md5 : String → String) (obs : JVal) : Except PyErr String := do
  let observer ← pyGetD obs "observer" (.str "")
  let sourceRef ← pyGetD obs "source_ref" (.str "")
  let severity ← pyGetD obs "severity" (.str "")
  let sourceType ← pyGetD obs "source_type" (.str "unknown")
  let metadata0 ← pyGetD obs "metadata" (.obj [])
  let metadata := if pyTruthy metadata0 then metadata0 else .obj []
  let category ← pyGetD metadata "category" (.str "")
  if pyTruthy sourceRef && pyEqStr sourceType "file" then
    pure (pyStr observer ++ ":file:" ++ pyStr sourceRef ++ ":" ++ pyStr severity)
  else if pyTruthy category then
    pure (pyStr observer ++ ":" ++ pyStr category ++ ":" ++ pyStr severity ++ ":" ++
      pyStr sourceRef)
  else
    match (← pyGetD obs "content" (.str "")) with
    | .str content =>
        pure (pyStr observer ++ ":" ++ pyStr severity ++ ":" ++
          strTake (md5 (normalizeContent content)) 8)
    | _ => .error (.attributeError "object has no attribute lower")

/-! ## Aggregation (`_aggregate_results`, lines 701-734) -/

/-- Inner loop of `_aggregate_results` over one result dict: observations are
kept on first-seen key, resolved items on first-seen truthy id. -/
def aggregateOne (md5 : String → String)
    (acc : List JVal × List String × List JVal × List String) (result : JVal) :
    Except PyErr (List JVal × List String × List JVal × List String) := do
  let (observations, seenKeys, resolved, seenIds) := acc
  let obsVal ← pyGetD result "observations" (.arr [])
  let obsItems ← pyIter obsVal
  let (observations, seenKeys) ← obsItems.foldlM
    (fun (acc2 : List JVal × List String) obs => do
      let key ← observationKey md5 obs
      if acc2.2.contains key then pure acc2
      else pure (acc2.1 ++ [obs], acc2.2 ++ [key]))
    (observations, seenKeys)
  let resVal ← pyGetD result "resolved" (.arr [])
  let resItems ← pyIter resVal
  let (resolved, seenIds) ← resItems.foldlM
    (fun (acc2 : List JVal × List String) res => do
      let resId ← pyGetD res "id" (.str "")
      let idStr := pyStr resId
      if pyTruthy resId && !acc2.2.contains idStr then
        pure (acc2.1 ++ [res], acc2.2 ++ [idStr])
      else pure acc2)
    (resolved, seenIds)
  pure (observations, seenKeys, resolved, seenIds)

/-- Model of `_aggregate_results`: aggregate observations and resolutions from all
observer results, deduplicating observations by key and resolutions by id.
The `isinstance(result, dict)` guard is kept: non-dict results are skipped. -/
def aggregateResults (md5 : String → String) (results : List JVal) :
    Except PyErr (List JVal × List JVal) := do
  let acc ← results.foldlM
    (fun acc result =>
      match result with
      | .obj _ => aggregateOne md5 acc result
      | _ => pure acc)
    (([] : List JVal), ([] : List String), ([] : List JVal), ([] : List String))
  pure (acc.1, acc.2.2.1)

/-! ## Prompt assembly (`_build_observer_prompt`, lines 548-601) -/

/-- Default observer protocol returned by `_get_default_protocol`
(lines 215-244), transcribed with braces escaped. -/
def defaultProtocol : String :=
  "## Output Format\n\nRespond with valid JSON only:\n\n```json\n\x7b\n  \"observations\": [\n    \x7b\n      \"content\": \"Description of the NEW issue\",\n      \"severity\": \"critical|high|medium|low|info\",\n      \"source_ref\": \"file:line or context reference\",\n      \"metadata\": \x7b\n        \"category\": \"security|quality|logic|performance\",\n        \"suggestion\": \"How to fix (optional)\"\n      \x7d\n    \x7d\n  ],\n  \"resolved\": [\n    \x7b\n      \"id\": \"id of issue that is now fixed\",\n      \"reason\": \"Brief explanation\"\n    \x7d\n  ]\n\x7d\n```\n\nIf no new issues and nothing resolved: `\x7b\"observations\": [], \"resolved\": []\x7d`\n"

/-- One bullet of the previously-reported list (lines 565-569):
``- id=`…` [severity] source_ref: content[:150]``. -/
def existingObsLine (obs : JVal) : Except PyErr String := do
  let i ← pyGetD obs "id" (.str "unknown")
  let sev ← pyGetD obs "severity" (.str "info")
  let ref ← pyGetD obs "source_ref" (.str "unknown")
  let content ← pyGetD obs "content" (.str "")
  let contentSliced ← pySliceTake content 150
  pure ("- id=`" ++ pyStr i ++ "` [" ++ pyStr sev ++ "] " ++ pyStr ref ++ ": " ++
    pyStr contentSliced)

/-- The "Previously Reported Issues" block (lines 570-581), built when open
observations exist.  Leading and trailing newlines as in the f-string. -/
def existingSectionOf (existingList : String) : String :=
  "\n## Previously Reported Issues\n\nThe following issues were previously reported. Review them against the current content:\n\n"
    ++ existingList
    ++ "\n\n**Your tasks:**\n1. Do NOT report these again if they still exist\n2. If an issue has been FIXED (no longer present in the content), mark it as resolved\n\n"

/-- The placeholder searched for in the protocol text. -/
def placeholderToken : String := "\x7b\x7bexisting_observations\x7d\x7d"

/-- Model of `_build_observer_prompt`: assembles content, the previously-reported
block, and the protocol.  When the protocol contains the
`\x7b\x7bexisting_observations\x7d\x7d` placeholder it is replaced by the block (or by
"No previously reported issues." when there are none); the block variable is
additionally interpolated between the content and the protocol by the final
f-string, exactly as in the source.  The `protocol` argument models the
`protocol or self._get_default_protocol()` default (falsy → default). -/
def buildObserverPrompt (content : String) (existingObservations : List JVal)
    (protocol : Option String) : Except PyErr String := do
  let existingSection ←
    if existingObservations.isEmpty then pure ""
    else do
      let lines ← existingObservations.mapM existingObsLine
      pure (existingSectionOf (String.intercalate "\n" lines))
  let protocolSection :=
    match protocol with
    | some p => if p.data.isEmpty then defaultProtocol else p
    | none => defaultProtocol
  let protocolSection :=
    if strContainsSub protocolSection placeholderToken then
      let obsText :=
        if existingObservations.isEmpty then "No previously reported issues."
        else existingSection
      pyReplace protocolSection placeholderToken obsText
    else protocolSection
  pure ("## Content to Review\n\n" ++ content ++ "\n" ++ existingSection ++ "\n" ++
    protocolSection ++ "\n")

/-! ## Fingerprinting (`_compute_state_hash`, `_get_file_state`,
`_get_conversation_state`, lines 246-293) -/

/-- Minimal JSON string escaping used by the serialisations fed to `md5`
(`json.dumps` escapes more, but every serialisation below only feeds the
`md5` oracle, so only injectivity-irrelevant rendering differs). -/
def jsonQuote (s : String) : String :=
  "\"" ++ String.intercalate "" (s.data.map fun c =>
    if c = '\\' then "\\\\"
    else if c = '"' then "\\\""
    else if c = '\n' then "\\n"
    else if c = '\t' then "\\t"
    else if c = '\r' then "\\r"
    else String.mk [c]) ++ "\""

mutual

/-- Rendering of a value as `json.dumps` would (default separators). -/
def JVal.dumps : JVal → String
  | .null => "null"
  | .bool true => "true"
  | .bool false => "false"
  | .num n => toString n
  | .str s => jsonQuote s
  | .arr xs => "[" ++ JVal.dumpsList xs ++ "]"
  | .obj fs => "\x7b" ++ JVal.dumpsFields fs ++ "\x7d"

/-- Comma-joined rendering of list elements. -/
def JVal.dumpsList : List JVal → String
  | [] => ""
  | [x] => JVal.dumps x
  | x :: rest => JVal.dumps x ++ ", " ++ JVal.dumpsList rest

/-- Comma-joined rendering of object fields. -/
def JVal.dumpsFields : List (String × JVal) → String
  | [] => ""
  | [(k, v)] => jsonQuote k ++ ": " ++ JVal.dumps v
  | (k, v) :: rest => jsonQuote k ++ ": " ++ JVal.dumps v ++ ", " ++ JVal.dumpsFields rest

end

/-- A file record `(path, mtime, size)` as collected by `_get_file_state`.
Timestamps and sizes are naturals (Python uses a float mtime; only ordering
and serialised rendering feed the hash oracle). -/
abbrev FileEntry := String × Nat × Nat

/-- Stable insertion of one element into a sorted list. -/
def insertSorted (le : FileEntry → FileEntry → Bool) (x : FileEntry) :
    List FileEntry → List FileEntry
  | [] => [x]
  | y :: ys => if le x y then x :: y :: ys else y :: insertSorted le x ys

/-- Sorting by repeated insertion; agrees with Python's `list.sort()` under
the total lexicographic order on file records. -/
def insertionSort (le : FileEntry → FileEntry → Bool) : List FileEntry → List FileEntry
  | [] => []
  | x :: xs => insertSorted le x (insertionSort le xs)

/-- Lexicographic comparison of file records, Python tuple `sort()`. -/
def fileEntryLe (a b : FileEntry) : Bool :=
  a.1 < b.1 || (a.1 = b.1 && (a.2.1 < b.2.1 || (a.2.1 = b.2.1 && a.2.2 ≤ b.2.2)))

/-- Serialisation of the sorted file records, `json.dumps(file_info)`
(tuples render as JSON arrays). -/
def dumpsFileInfo (info : List FileEntry) : String :=
  "[" ++ String.intercalate ", " (info.map fun e =>
    "[" ++ jsonQuote e.1 ++ ", " ++ toString e.2.1 ++ ", " ++ toString e.2.2 ++ "]") ++ "]"

/-- Model of `_get_file_state`: hash of the sorted `(path, mtime, size)` records of all
files matching the patterns.  `glob pat` is the oracle for
`glob(pat, recursive=True)` filtered by `os.path.isfile` with a successful
`os.stat` (files whose stat raises `OSError` are skipped by the code and so
simply do not appear in the oracle's answer). -/
def getFileState (md5 : String → String) (glob : String → List FileEntry)
    (paths : List String) : String :=
  let fileInfo := (paths.map glob).flatten
  md5 (dumpsFileInfo (insertionSort fileEntryLe fileInfo))

/-- The relevant-message extraction of `_get_conversation_state`: keep
messages whose `role` is `user`, `assistant` or `tool` and pair the role with
the content truncated to 500 characters.  `m.get` on a non-dict message and
`[:500]` on an unsliceable content raise, as in the source. -/
def convRelevant (messages : List JVal) : Except PyErr (List (JVal × JVal)) :=
  messages.foldlM
    (fun acc m => do
      let role ← pyGetD m "role" .null
      if pyEqStr role "user" || pyEqStr role "assistant" || pyEqStr role "tool" then
        let content ← pyGetD m "content" (.str "")
        let sliced ← pySliceTake content 500
        pure (acc ++ [(role, sliced)])
      else pure acc)
    []

/-- Model of `_get_conversation_state`: hash of the relevant messages serialised with
sorted keys (`content` before `role`). -/
def getConversationState (md5 : String → String) (event : JVal) :
    Except PyErr String := do
  let messages ← pyGetD event "messages" (.arr [])
  let items ← pyIter messages
  let relevant ← convRelevant items
  let serialised := "[" ++ String.intercalate ", " (relevant.map fun rc =>
    "\x7b\"content\": " ++ JVal.dumps rc.2 ++ ", \"role\": " ++ JVal.dumps rc.1 ++ "\x7d") ++ "]"
  pure (md5 serialised)

/-- Watch type of a `WatchConfig` (`models.WatchType`). -/
inductive WatchType where
  | files
  | conversation
deriving Repr, BEq, DecidableEq

/-- Model of `models.WatchConfig`: what one observer watches.  `paths` models
`watch.paths or []` (the code immediately defaults a missing list). -/
structure WatchConfig where
  type : WatchType
  paths : List String
  includeToolCalls : Bool
deriving Repr

/-- Model of `models.ObserverReference` as consumed by the hook handlers. -/
structure ObserverRef where
  observer : String
  watch : List WatchConfig
  enabled : Bool
deriving Repr

/-- Model of `_compute_state_hash`: per-watch fingerprints of every reference, joined
with `|` and hashed once more. -/
def computeStateHash (md5 : String → String) (glob : String → List FileEntry)
    (observerRefs : List ObserverRef) (event : JVal) : Except PyErr String := do
  let parts ← observerRefs.foldlM
    (fun acc ref => ref.watch.foldlM
      (fun acc2 w =>
        match w.type with
        | .files => pure (acc2 ++ [getFileState md5 glob w.paths])
        | .conversation => do
            let convState ← getConversationState md5 event
            pure (acc2 ++ [convState]))
      acc)
    ([] : List String)
  pure (md5 (String.intercalate "|" parts))

/-! ## Content collector (`_get_file_content`, `_get_conversation_content`,
lines 490-546) -/

/-- The accumulation loop of `_get_file_content` over the files matched by
the glob patterns in order, given as `(path, content)` pairs (files whose
`open`/`read` raises are skipped by the code and therefore absent from the
input).  Each file is cut to the remaining budget with a truncation marker
when it would exceed it, and the loop stops once the accumulated content
length reaches the cap — the nested per-pattern loops with their two `break`
statements flatten to exactly this recursion. -/
def collectFileEntries (maxSize : Nat) (total : Nat) :
    List (String × String) → List (String × String)
  | [] => []
  | (path, content) :: rest =>
      let remaining := maxSize - total
      let content' :=
        if content.length > remaining then strTake content remaining ++ "\n... [truncated]"
        else content
      let total' := total + content'.length
      if total' ≥ maxSize then [(path, content')]
      else (path, content') :: collectFileEntries maxSize total' rest

/-- Markdown wrapper of one collected file: `### \x7bpath\x7d` followed by a fenced
block. -/
def renderFilePart (path content : String) : String :=
  "### " ++ path ++ "\n```\n" ++ content ++ "\n```"

/-- Model of `_get_file_content` with its `max_size` parameter (default 50000 at both
call sites): the collected files rendered and joined with blank lines. -/
def getFileContentSized (maxSize : Nat) (files : List (String × String)) : String :=
  String.intercalate "\n\n"
    ((collectFileEntries maxSize 0 files).map fun pc => renderFilePart pc.1 pc.2)

/-- Model of `_get_file_content` as called by `_build_review_content` (`max_size`
defaulted to 50000). -/
def getFileContent (files : List (String × String)) : String :=
  getFileContentSized 50000 files

/-- The per-message body of `_get_conversation_content`: the last 20 messages, each rendered as
`**role**: content` with contents longer than 2000 characters truncated and
marked; `role == "tool"` messages are dropped when `include_tool_calls` is
false.  The `include_reasoning` flag is accepted and ignored, as in the
source. -/
def convLine (includeToolCalls : Bool) (acc : List String) (msg : JVal) :
    Except PyErr (List String) := do
  let role ← pyGetD msg "role" (.str "unknown")
  let content ← pyGetD msg "content" (.str "")
  if pyEqStr role "tool" && !includeToolCalls then pure acc
  else do
    let len ← pyLen content
    let content ←
      if len > 2000 then do
        let sliced ← pySliceTake content 2000
        match sliced with
        | .str s => pure (JVal.str (s ++ "... [truncated]"))
        | _ => .error (.typeError "can only concatenate compatible types")
      else pure content
    pure (acc ++ ["**" ++ pyStr role ++ "**: " ++ pyStr content])

/-- The rendering loop of `_get_conversation_content` over the already
selected messages. -/
def convRender (includeToolCalls : Bool) (items : List JVal) : Except PyErr String := do
  let parts ← items.foldlM (convLine includeToolCalls) ([] : List String)
  pure (String.intercalate "\n\n" parts)

/-- Model of `_get_conversation_content`: take the last 20 messages and render them via
`convRender`. -/
def getConversationContent (event : JVal) (includeToolCalls : Bool)
    (includeReasoning : Bool) : Except PyErr String := do
  let _ := includeReasoning
  let messages ← pyGetD event "messages" (.arr [])
  let lastMsgs ← pySliceLast messages 20
  let items ← pyIter lastMsgs
  convRender includeToolCalls items

/-! ## The observations store

The `observations` tool itself is not part of this module's sources (only the
hook code that talks to it through `coordinator.get("tools", "observations")`
and `tool.execute(...)` is), so its behaviour is modelled from the spec. -/

/-- Condition of the external observations tool as seen from one call:
missing from the coordinator, raising from `execute`, answering with an
unsuccessful `ToolResult`, or available over a store of observation dicts. -/
inductive ToolState where
  | absent
  | raising
  | unsuccessful
  | available (store : List JVal)

/-- Status of a stored observation dict. -/
def obsStatus (d : JVal) : JVal :=
  match d with
  | .obj fs => objGetD fs "status" .null
  | _ => .null

/-- Modelled from the spec: the tool's `list` operation with
`filters=\x7bstatus: "open"\x7d` returns the stored observations whose status is
`open` (§6 of the spec; exercised by `test_list_with_status_filter`). -/
def listOpen (store : List JVal) : List JVal :=
  store.filter fun d => pyEqStr (obsStatus d) "open"

/-- Status assignment a created observation receives from the store:
`models.Observation.create` always assigns `Status.OPEN`. -/
def setStatusOpen (obs : JVal) : JVal :=
  match obs with
  | .obj fs => .obj (objSet fs "status" (.str "open"))
  | other => other

/-- Modelled from the spec: the tool's `create_batch` operation persists the
given observations (§6).  Each created observation starts in the `open`
status: `models.Observation.create` always assigns `Status.OPEN`, and the
tool tests list freshly batch-created observations under the `open` filter.
Id assignment is omitted — nothing here reads ids of stored rows. -/
def createBatch (store newObs : List JVal) : List JVal :=
  store ++ newObs.map setStatusOpen

/-- Model of `_get_open_observations` (lines 832-852): open observations from the
tool; an absent tool, a raising `execute` or an unsuccessful result all fall
through to the empty list. -/
def getOpenObservations : ToolState → List JVal
  | .absent => []
  | .raising => []
  | .unsuccessful => []
  | .available store => listOpen store

/-- Keys of a list of observations, in order, first failure propagating:
the set comprehension `\x7bself._observation_key(obs) for obs in existing\x7d`
(set membership is modelled by list membership; duplicates are harmless). -/
def mapKeys (md5 : String → String) : List JVal → Except PyErr (List String)
  | [] => .ok []
  | obs :: rest => do
      let k ← observationKey md5 obs
      let ks ← mapKeys md5 rest
      pure (k :: ks)

/-- The filtering comprehension of `_write_observations` (lines 780-782):
keep the observations whose key is not among the existing keys, computing
keys left to right with the first failure propagating. -/
def filterNewAux (md5 : String → String) (existingKeys : List String) :
    List JVal → Except PyErr (List JVal)
  | [] => .ok []
  | obs :: rest => do
      let k ← observationKey md5 obs
      let ns ← filterNewAux md5 existingKeys rest
      pure (if existingKeys.contains k then ns else obs :: ns)

/-- The duplicate filter of `_write_observations` (lines 776-782): keys of
the currently open observations, then the incoming observations whose key is
not among them.  Any exception from a key computation aborts the whole
write (it is caught by the surrounding `try`). -/
def writeFilterNew (md5 : String → String) (existing observations : List JVal) :
    Except PyErr (List JVal) := do
  let existingKeys ← mapKeys md5 existing
  filterNewAux md5 existingKeys observations

/-- Result of one `_write_observations` call: the tool afterwards, and the
batch passed to a `create_batch` call (`none` when no call was made). -/
structure WriteOut where
  tool : ToolState
  sent : Option (List JVal)

/-- Model of `_write_observations` (lines 767-801): fetch open observations, drop
incoming duplicates by key, and `create_batch` the remainder unless it is
empty.  All failures are caught: a missing tool or a key-computation error
leaves the store untouched with no call; a raising or unsuccessful tool
receives the call but nothing is persisted. -/
def writeObservations (md5 : String → String) (t : ToolState)
    (observations : List JVal) : WriteOut :=
  match t with
  | .absent => ⟨t, none⟩
  | .raising =>
      match writeFilterNew md5 [] observations with
      | .error _ => ⟨t, none⟩
      | .ok [] => ⟨t, none⟩
      | .ok newObs => ⟨t, some newObs⟩
  | .unsuccessful =>
      match writeFilterNew md5 [] observations with
      | .error _ => ⟨t, none⟩
      | .ok [] => ⟨t, none⟩
      | .ok newObs => ⟨t, some newObs⟩
  | .available store =>
      match writeFilterNew md5 (listOpen store) observations with
      | .error _ => ⟨t, none⟩
      | .ok [] => ⟨t, none⟩
      | .ok newObs => ⟨.available (createBatch store newObs), some newObs⟩

/-- Modelled from the spec: the tool's `resolve` operation sets the matching
observation's status to `resolved` and records the resolution note (§6;
`models.Observation.resolve`; the `resolved_at` timestamp is omitted). -/
def resolveInStore (store : List JVal) (obsId : JVal) (note : String) : List JVal :=
  store.map fun d =>
    match d with
    | .obj fs =>
        if objGetD fs "id" .null == obsId then
          .obj (objSet (objSet fs "status" (.str "resolved")) "resolution_note" (.str note))
        else .obj fs
    | other => other

/-- The per-item loop of `_resolve_observations` (lines 810-827): items
without a truthy id are skipped; a non-dict item makes `item.get` raise,
which the surrounding `try` catches, abandoning the remaining items but
keeping the resolutions already applied. -/
def resolveLoop (store : List JVal) : List JVal → List JVal
  | [] => store
  | item :: rest =>
      match item with
      | .obj fs =>
          let obsId := objGetD fs "id" .null
          if !pyTruthy obsId then resolveLoop store rest
          else
            let reason := pyStr (objGetD fs "reason"
              (.str "Issue no longer detected by observer"))
            resolveLoop (resolveInStore store obsId ("Auto-resolved: " ++ reason)) rest
      | _ => store

/-- Model of `_resolve_observations` (lines 803-830): resolve each reported item on an
available tool; absent, raising and unsuccessful tools change nothing. -/
def resolveObservations (t : ToolState) (resolved : List JVal) : ToolState :=
  match t with
  | .available store => .available (resolveLoop store resolved)
  | _ => t

/-! ## Scheduler and orchestrator (`_spawn_observer`,
`_run_observers_parallel`, `trigger_observers`, lines 65-130 and 295-378) -/

/-- Rendering of a caught exception by `str(e)` in the error sentinel. -/
def pyErrMsg : PyErr → String
  | .typeError msg => msg
  | .attributeError msg => msg
  | .timeoutError => ""

/-- Oracle for the body of one observer task, covering the outcomes of
`run_with_semaphore`/`_spawn_observer`: the observer failed to load, the
LLM call completed with a textual response, the per-observer `wait_for`
expired, or the call raised some other exception. -/
inductive SpawnOutcome where
  | notLoaded
  | completed (text : String)
  | timedOut
  | failed (msg : String)

/-- One observer task (`run_with_semaphore` wrapping `_spawn_observer`): an
unloaded observer yields the empty result; a completed call parses the
response, converting any parser exception into an error sentinel; a timeout
re-raises when `execution.on_timeout == "fail"` and yields the timeout
sentinel otherwise; any other exception yields an error sentinel.  The
`Except.error` result models the exception escaping the task. -/
def spawnObserver (decode : String → Option JVal) (regexSearch : String → Option String)
    (onTimeoutPolicy : String) (name : String) : SpawnOutcome → Except PyErr JVal
  | .notLoaded => .ok emptyObsResolved
  | .completed text =>
      match parseObserverResult decode regexSearch text name with
      | .ok d => .ok d
      | .error e => .ok (errorSentinel (pyErrMsg e))
  | .timedOut =>
      if onTimeoutPolicy = "fail" then .error .timeoutError else .ok timeoutSentinel
  | .failed msg => .ok (errorSentinel msg)

/-- Model of `_run_observers_parallel`: loads observers (load failures are caught per
observer and surface as `notLoaded` outcomes), fetches existing observations
and the protocol (a failing protocol load raises out of the scheduler), runs
the tasks under `asyncio.gather(..., return_exceptions=True)` — so a task's
exception becomes a value in the result list — and keeps only dict-shaped
results.  When the global `wait_for` deadline (`2 ×
execution.timeout_per_observer`) elapses, the `TimeoutError` is caught and
the result list is empty.  The prompt text built for each task does not
influence its oracle outcome, so prompt assembly is not repeated here. -/
def runObserversParallel (decode : String → Option JVal)
    (regexSearch : String → Option String) (protocolOutcome : Except PyErr String)
    (globalTimeout : Bool) (onTimeoutPolicy : String)
    (observerRefs : List ObserverRef) (outcomes : List SpawnOutcome) :
    Except PyErr (List JVal) := do
  let _protocol ← protocolOutcome
  let taskResults := (observerRefs.zip outcomes).map fun ro =>
    spawnObserver decode regexSearch onTimeoutPolicy ro.1.observer ro.2
  if globalTimeout then pure []
  else pure (taskResults.filterMap fun r =>
    match r with
    | .ok d => some d
    | .error _ => none)

/-- Model of `models.ExecutionConfig` (only `on_timeout` steers modelled behaviour;
the concurrency bound and the per-observer timeout are wall-clock concerns
whose effects enter through the outcome oracles). -/
structure ExecutionConfig where
  maxConcurrent : Nat
  timeoutPerObserver : Nat
  onTimeoutPolicy : String

/-- Model of `models.ObservationsModuleConfig` as used by `trigger_observers`. -/
structure ModuleConfig where
  execution : ExecutionConfig
  observers : List ObserverRef

/-- Model of `amplifier_core.HookResult` as constructed by the handlers. -/
structure HookRes where
  action : String
  contextInjection : Option String
  contextInjectionRole : Option String
deriving Repr, BEq, DecidableEq

/-- Model of `HookResult(action="continue")`. -/
def continueResult : HookRes := ⟨"continue", none, none⟩

/-- The environment of one `trigger_observers` call: the library oracles, the
protocol-load outcome, whether the global batch deadline elapsed, the
per-observer task outcomes (positionally matching the enabled observers),
and the observations tool. -/
structure Env where
  md5 : String → String
  glob : String → List FileEntry
  decode : String → Option JVal
  regexSearch : String → Option String
  protocolOutcome : Except PyErr String
  globalTimeout : Bool
  outcomes : List SpawnOutcome
  tool : ToolState

/-- Result of one `trigger_observers` call: the stored fingerprint afterwards
(`self._last_state_hash`), the tool afterwards, the returned `HookResult` (or
the exception propagating to the host), and whether the scheduler was
invoked. -/
structure TrigOut where
  lastStateHash : Option String
  tool : ToolState
  result : Except PyErr HookRes
  dispatched : Bool

/-- The body of the `try` block of `trigger_observers` up to aggregation:
run the scheduler and aggregate its results. -/
def trigTry (env : Env) (onTimeoutPolicy : String) (enabled : List ObserverRef) :
    Except PyErr (List JVal × List JVal) := do
  let results ← runObserversParallel env.decode env.regexSearch env.protocolOutcome
    env.globalTimeout onTimeoutPolicy enabled env.outcomes
  aggregateResults env.md5 results

/-- Model of `trigger_observers` (lines 65-130): skip without observers or enabled
observers; compute the state fingerprint (outside the `try`, so its
exceptions propagate); return `continue` unchanged when it equals the stored
one; otherwise run the scheduler and aggregation inside the `try` (failures
are logged and converted to `continue` with the fingerprint not advanced),
write non-empty observations, resolve non-empty resolutions, advance the
stored fingerprint and return `continue`. -/
def triggerObservers (cfg : ModuleConfig) (env : Env) (event : JVal)
    (lastHash : Option String) : TrigOut :=
  if cfg.observers.isEmpty then ⟨lastHash, env.tool, .ok continueResult, false⟩
  else
    let enabled := cfg.observers.filter fun o => o.enabled
    if enabled.isEmpty then ⟨lastHash, env.tool, .ok continueResult, false⟩
    else
      match computeStateHash env.md5 env.glob enabled event with
      | .error e => ⟨lastHash, env.tool, .error e, false⟩
      | .ok currentHash =>
          if some currentHash = lastHash then
            ⟨lastHash, env.tool, .ok continueResult, false⟩
          else
            match trigTry env cfg.execution.onTimeoutPolicy enabled with
            | .error _ => ⟨lastHash, env.tool, .ok continueResult, true⟩
            | .ok (observations, resolved) =>
                let t1 :=
                  if observations.isEmpty then env.tool
                  else (writeObservations env.md5 env.tool observations).tool
                let t2 :=
                  if resolved.isEmpty then t1
                  else resolveObservations t1 resolved
                ⟨some currentHash, t2, .ok continueResult, true⟩

/-! ## Context injection (`inject_observations`,
`_format_observations_summary`, lines 132-160 and 854-881) -/

/-- Count map update for the by-severity tally (Python dict keyed by the
severity value; an unhashable key would raise, but severities reaching this
point are strings or other hashable scalars — modelled as raw value keys). -/
def tallyAdd (tally : List (JVal × Nat)) (k : JVal) : List (JVal × Nat) :=
  match tally with
  | [] => [(k, 1)]
  | (k', n) :: rest => if k' == k then (k', n + 1) :: rest else (k', n) :: tallyAdd rest k

/-- Grouping of observations by observer, insertion-ordered. -/
def groupAdd (groups : List (JVal × List JVal)) (k : JVal) (obs : JVal) :
    List (JVal × List JVal) :=
  match groups with
  | [] => [(k, [obs])]
  | (k', l) :: rest =>
      if k' == k then (k', l ++ [obs]) :: rest else (k', l) :: groupAdd rest k obs

/-- The first up-to-3 item lines of one observer's group:
`  [severity] content[:100]`. -/
def summaryGroupLines (obsList : List JVal) : Except PyErr (List String) :=
  (obsList.take 3).mapM fun obs => do
    let sev ← pyGetD obs "severity" (.str "info")
    let content ← pyGetD obs "content" (.str "")
    let sliced ← pySliceTake content 100
    pure ("  [" ++ pyStr sev ++ "] " ++ pyStr sliced)

/-- Model of `_format_observations_summary`: total and per-severity counts, then up to
three items per observer with an overflow line. -/
def formatObservationsSummary (observations : List JVal) : Except PyErr String := do
  let bySeverity ← observations.foldlM
    (fun tally obs => do
      let sev ← pyGetD obs "severity" (.str "info")
      pure (tallyAdd tally sev))
    ([] : List (JVal × Nat))
  let headLines := [
    "Active Observations: " ++ toString observations.length ++ " open",
    "By Severity: " ++ String.intercalate ", "
      (bySeverity.map fun sn => pyStr sn.1 ++ ": " ++ toString sn.2)]
  let byObserver ← observations.foldlM
    (fun groups obs => do
      let observer ← pyGetD obs "observer" (.str "unknown")
      pure (groupAdd groups observer obs))
    ([] : List (JVal × List JVal))
  let groupLines ← byObserver.foldlM
    (fun acc grp => do
      let headerLine := "\n**" ++ pyStr grp.1 ++ "** (" ++ toString grp.2.length ++
        " observations):"
      let items ← summaryGroupLines grp.2
      let overflow :=
        if grp.2.length > 3 then ["  ... and " ++ toString (grp.2.length - 3) ++ " more"]
        else []
      pure (acc ++ [headerLine] ++ items ++ overflow))
    ([] : List String)
  pure (String.intercalate "\n" (headLines ++ groupLines))

/-- Model of `inject_observations` (lines 132-160): with no open observations, a plain
`continue`; otherwise an `inject_context` result wrapping the summary in a
system reminder. -/
def injectObservations (tool : ToolState) : Except PyErr HookRes := do
  let observations := getOpenObservations tool
  if observations.isEmpty then pure continueResult
  else do
    let summary ← formatObservationsSummary observations
    pure ⟨"inject_context",
      some ("<system-reminder source=\"observers\">\n" ++ summary ++
        "\n\nPlease review and address these observations in your response.\n</system-reminder>"),
      some "system"⟩

/-! ## Concrete instances used to evaluate the model on specific inputs -/

/-- A conversation watch with tool calls included. -/
def convWatch : WatchConfig := ⟨.conversation, [], true⟩

/-- An enabled observer reference watching the conversation. -/
def secRef : ObserverRef := ⟨"observers/security", [convWatch], true⟩

/-- A second enabled observer reference. -/
def qualRef : ObserverRef := ⟨"observers/quality", [convWatch], true⟩

/-- A configuration with one enabled observer and `on_timeout = "skip"`. -/
def skipConfig : ModuleConfig := ⟨⟨10, 30, "skip"⟩, [secRef]⟩

/-- A configuration with two enabled observers and `on_timeout = "fail"`. -/
def failConfig : ModuleConfig := ⟨⟨10, 30, "fail"⟩, [secRef, qualRef]⟩

/-- An event whose only message is a user message with string content. -/
def sampleEvent : JVal :=
  .obj [("messages", .arr [.obj [("role", .str "user"), ("content", .str "hi")]])]

/-- An event whose message carries an integer `content` — `content[:500]` in
`_get_conversation_state` raises `TypeError` on it. -/
def badEvent : JVal :=
  .obj [("messages", .arr [.obj [("role", .str "user"), ("content", .num 42)]])]

/-- Decode oracle for responses that are not valid JSON anywhere. -/
def noneDecode : String → Option JVal := fun _ => none

/-- Regex oracle for texts in which the observations pattern does not match. -/
def noneRegex : String → Option String := fun _ => none

/-- A concrete stand-in for the md5 hex-digest oracle. -/
def idHash : String → String := fun s => s

/-- A benign environment: protocol loads, no timeouts, one observer answering
with plain prose, an available empty store. -/
def baseEnv : Env :=
  ⟨idHash, fun _ => [], noneDecode, noneRegex, .ok "protocol", false,
    [.completed "No issues found."], .available []⟩

/-- The benign environment after the global batch deadline elapsed. -/
def timeoutEnv : Env :=
  ⟨idHash, fun _ => [], noneDecode, noneRegex, .ok "protocol", true,
    [.completed "No issues found."], .available []⟩

/-- A plain-prose observer response: not JSON, longer than 50 characters
stripped, not starting with `No issues`. -/
def longText : String :=
  "the function builds a SQL query by string concatenation from user input"

/-- Environment for the two-observer `on_timeout = "fail"` batch: the first
observer times out, the second completes with plain prose. -/
def failEnv : Env :=
  ⟨idHash, fun _ => [], noneDecode, noneRegex, .ok "protocol", false,
    [.timedOut, .completed longText], .available []⟩

/-- A protocol text containing the `\x7b\x7bexisting_observations\x7d\x7d` placeholder. -/
def placeholderProtocol : String :=
  "Important rules first.\n\x7b\x7bexisting_observations\x7d\x7d\nRespond with JSON."

/-- A second protocol text with the placeholder, for the structural shape of
the assembled prompt. -/
def rulesProtocol : String := "Rules.\n\x7b\x7bexisting_observations\x7d\x7d\nEnd."

/-- One open observation as listed by the store. -/
def sampleObs : JVal :=
  .obj [("id", .str "obs-1"), ("severity", .str "high"),
    ("source_ref", .str "a.py:3"), ("content", .str "eval used")]

/-- Header line of the previously-reported block. -/
def prevHeader : String := "## Previously Reported Issues"

/-- The previously-reported block generated for `sampleObs` alone. -/
def sampleBlock : String := existingSectionOf "- id=`obs-1` [high] a.py:3: eval used"

/-- 50 `x` characters padded with two trailing blanks: 52 characters raw,
50 once stripped, and not valid JSON. -/
def paddedText : String := String.mk (List.replicate 50 'x') ++ "  "

/-- 51 `x` characters: longer than 50 even stripped, and not valid JSON. -/
def plainText51 : String := String.mk (List.replicate 51 'x')

/-- An observer response consisting only of a `resolved` array. -/
def resolvedOnlyJson : String :=
  "\x7b\"resolved\": [\x7b\"id\": \"obs-1\", \"reason\": \"fixed\"\x7d]\x7d"

/-- The decoded value of `resolvedOnlyJson`. -/
def resolvedOnlyVal : JVal :=
  .obj [("resolved", .arr [.obj [("id", .str "obs-1"), ("reason", .str "fixed")]])]

/-- Decode oracle agreeing with `json.loads` on `resolvedOnlyJson` (and
refusing everything else, which no property below exercises). -/
def resolvedOnlyDecode : String → Option JVal :=
  fun s => if s = resolvedOnlyJson then some resolvedOnlyVal else none

/-- A file of 50,001 `a` characters, exceeding the collector cap by one. -/
def bigContent : String := String.mk (List.replicate 50001 'a')

/-- An observation dict shaped like the parser's output for a file finding. -/
def fileObs : JVal :=
  .obj [("observer", .str "Sec"), ("content", .str "eval of user input"),
    ("severity", .str "critical"), ("source_ref", .str "a.py:1"),
    ("source_type", .str "file"), ("status", .str "open"),
    ("metadata", .obj [("category", .str "security")])]

/-- The composite fingerprint `computeStateHash` assigns to `sampleEvent`
under `idHash` for a single conversation watch. -/
def sampleHash : String := "[\x7b\"content\": \"hi\", \"role\": \"user\"\x7d]"

/-- Total length of the per-file text included in collected entries. -/
def includedLengthSum (entries : List (String × String)) : Nat :=
  (entries.map fun pc => pc.2.length).sum

/-- A message with string content, for conversation-content instances. -/
def plainMsg : JVal := .obj [("role", .str "user"), ("content", .str "m")]

/-- A 2001-character message content, one over the conversation cut. -/
def longMsgContent : String := String.mk (List.replicate 2001 'z')

end Observers

open Observers

/-! # Properties

Each claim theorem below refers to the definitions above, which embed
`trigger_observers` and its helpers.  Helper lemmas come first. -/

theorem objGet?_objSet_self (fs : List (String × JVal)) (k : String) (v : JVal) :
    objGet? (objSet fs k v) k = some v := by
  induction fs with
  | nil => simp [objSet, objGet?]
  | cons kv rest ih =>
      by_cases hk : kv.1 = k
      · simp [objSet, hk, objGet?]
      · simp [objSet, hk, objGet?, ih]

theorem objGet?_objSet_ne (fs : List (String × JVal)) (k k' : String) (v : JVal)
    (h : k' ≠ k) : objGet? (objSet fs k v) k' = objGet? fs k' := by
  induction fs with
  | nil => simp [objSet, objGet?, Ne.symm h]
  | cons kv rest ih =>
      by_cases hk : kv.1 = k
      · subst hk
        simp [objSet, objGet?, Ne.symm h]
      · by_cases hk' : kv.1 = k'
        · simp [objSet, hk, objGet?, hk', h]
        · simp [objSet, hk, objGet?, hk', ih]

theorem objGetD_objSet_ne (fs : List (String × JVal)) (k k' : String) (v d : JVal)
    (h : k' ≠ k) : objGetD (objSet fs k v) k' d = objGetD fs k' d := by
  simp [objGetD, objGet?_objSet_ne fs k k' v h]

theorem observationKey_setStatusOpen (md5 : String → String) (obs : JVal) :
    observationKey md5 (setStatusOpen obs) = observationKey md5 obs := by
  cases obs with
  | obj fs =>
      simp only [setStatusOpen, observationKey, pyGetD,
        objGetD_objSet_ne fs "status" "observer" (.str "open") (.str "") (by decide),
        objGetD_objSet_ne fs "status" "source_ref" (.str "open") (.str "") (by decide),
        objGetD_objSet_ne fs "status" "severity" (.str "open") (.str "") (by decide),
        objGetD_objSet_ne fs "status" "source_type" (.str "open") (.str "unknown") (by decide),
        objGetD_objSet_ne fs "status" "metadata" (.str "open") (.obj []) (by decide),
        objGetD_objSet_ne fs "status" "content" (.str "open") (.str "") (by decide)]
  | null => rfl
  | bool b => rfl
  | num n => rfl
  | str s => rfl
  | arr xs => rfl

set_option maxRecDepth 20000 in
/-- C4 counterexample: with a protocol containing the
`\x7b\x7bexisting_observations\x7d\x7d` placeholder (exactly once) and one open
observation, the assembled prompt contains the `## Previously Reported
Issues` block header twice, not exactly once — the block is substituted at
the placeholder and additionally interpolated after the review content.
Neither the content nor the protocol contributes an occurrence. -/
theorem c4_counterexample :
    countOccs placeholderProtocol placeholderToken = 1 ∧
    (buildObserverPrompt "print(1)" [sampleObs] (some placeholderProtocol)).map
      (fun prompt => countOccs prompt prevHeader) = Except.ok 2 ∧
    countOccs placeholderProtocol prevHeader = 0 ∧
    countOccs "print(1)" prevHeader = 0 :=
  ⟨by decide, rfl, by decide, by decide⟩


set_option maxRecDepth 20000 in
/-- C7 counterexample: a raw text of 52 characters (50 `x`s and two trailing
blanks) is longer than 50 characters and does not begin with `No issues`, its
JSON decoding fails, yet the parser returns the empty result rather than the
fallback observation — the 50-character test is applied to the stripped text,
which has exactly 50 characters here. -/
theorem c7_counterexample :
    50 < paddedText.length ∧ pyStartsWith paddedText "No issues" = false ∧
    noneDecode (extractJsonText noneRegex paddedText) = none ∧
    parseObserverResult noneDecode noneRegex paddedText "Checker" = .ok emptyObsDict :=
  ⟨by decide, by decide, rfl, rfl⟩

/-- C7 amended: when JSON decoding of the (fence-stripped) text fails, the
parser returns the single fallback observation — severity `info`,
`source_type` `unknown`, `metadata.parse_error = true`, content the first 500
characters of the raw text — if and only if the whitespace-STRIPPED text is
longer than 50 characters and the raw text does not begin with `No issues`;
otherwise it returns the empty observations result. -/
theorem c7_parse_fallback (decode : String → Option JVal)
    (regexSearch : String → Option String) (text name : String)
    (hdec : decode (extractJsonText regexSearch text) = none) :
    (50 < (pyStrip text).length ∧ pyStartsWith text "No issues" = false →
      parseObserverResult decode regexSearch text name = .ok (fallbackResult name text)) ∧
    (¬ 50 < (pyStrip text).length ∨ pyStartsWith text "No issues" = true →
      parseObserverResult decode regexSearch text name = .ok emptyObsDict) := by
  constructor
  · rintro ⟨h1, h2⟩
    simp only [parseObserverResult, hdec]
    simp [h1, h2]
  · intro h
    simp only [parseObserverResult, hdec]
    rcases h with h | h
    · simp [h]
    · simp [h]

set_option maxRecDepth 20000 in
/-- C7 witness: a 51-character plain text triggers the fallback observation. -/
theorem c7_witness :
    parseObserverResult noneDecode noneRegex plainText51 "Checker" =
      .ok (fallbackResult "Checker" plainText51) :=
  (c7_parse_fallback noneDecode noneRegex plainText51 "Checker" rfl).1
    ⟨by decide, by decide⟩

/-- C9: when the response decodes to a JSON object with no `observations`
key, the parser falls through to `\x7b"observations": []\x7d`, which carries no
`resolved` entry, and aggregation of such a result yields no resolutions —
any resolutions in the response are silently discarded. -/
theorem c9_missing_observations_key (decode : String → Option JVal)
    (regexSearch : String → Option String) (text name : String)
    (fs : List (String × JVal))
    (hdec : decode (extractJsonText regexSearch text) = some (.obj fs))
    (hno : objHasKey fs "observations" = false) :
    parseObserverResult decode regexSearch text name = .ok emptyObsDict ∧
    objHasKey [("observations", JVal.arr [])] "resolved" = false ∧
    (∀ md5 : String → String, aggregateResults md5 [emptyObsDict] = .ok ([], [])) := by
  refine ⟨?_, rfl, fun _ => rfl⟩
  simp only [parseObserverResult, hdec, pyContainsStr, hno]
  rfl

/-- C9 witness: a response consisting only of a `resolved` array parses to
the empty observations result. -/
theorem c9_witness :
    parseObserverResult resolvedOnlyDecode noneRegex resolvedOnlyJson "Checker" =
      .ok emptyObsDict ∧
    objHasKey [("observations", JVal.arr [])] "resolved" = false ∧
    (∀ md5 : String → String, aggregateResults md5 [emptyObsDict] = .ok ([], [])) :=
  c9_missing_observations_key resolvedOnlyDecode noneRegex resolvedOnlyJson "Checker"
    [("resolved", .arr [.obj [("id", .str "obs-1"), ("reason", .str "fixed")]])] rfl rfl

/-- C10: when the observations tool is absent, its `execute` raises, or it
answers unsuccessfully, `_get_open_observations` returns the empty list and
`inject_observations` returns a plain `continue` with no context injection. -/
theorem c10_tool_failure_continue (t : ToolState)
    (h : t = ToolState.absent ∨ t = ToolState.raising ∨ t = ToolState.unsuccessful) :
    getOpenObservations t = [] ∧ injectObservations t = .ok continueResult := by
  rcases h with h | h | h <;> subst h <;> exact ⟨rfl, rfl⟩

/-- C10 witness: the absent-tool case. -/
theorem c10_witness :
    getOpenObservations ToolState.absent = [] ∧
    injectObservations ToolState.absent = .ok continueResult :=
  c10_tool_failure_continue ToolState.absent (Or.inl rfl)

set_option maxRecDepth 20000 in
/-- C5 counterexample: a message whose `content` is the integer 42 makes
`_get_conversation_state`'s `content[:500]` slice raise `TypeError`; the
fingerprint is computed before the `try` block, so the exception propagates
out of `trigger_observers` instead of being converted to `continue`. -/
theorem c5_counterexample :
    (triggerObservers skipConfig baseEnv badEvent none).result =
      .error (.typeError "object is not subscriptable") := rfl

/-- C5 amended: `trigger_observers` either returns `continue` (all failures
from the scheduler boundary onwards are caught and converted) or propagates
exactly the exception raised by the fingerprint computation, which runs
before the `try` block. -/
theorem c5_continue_unless_fingerprint_raises (cfg : ModuleConfig) (env : Env)
    (event : JVal) (lastHash : Option String) :
    (triggerObservers cfg env event lastHash).result = .ok continueResult ∨
    ∃ e, (triggerObservers cfg env event lastHash).result = .error e ∧
      computeStateHash env.md5 env.glob (cfg.observers.filter fun o => o.enabled) event =
        .error e := by
  unfold triggerObservers
  dsimp only
  split
  · exact Or.inl rfl
  · split
    · exact Or.inl rfl
    · split
      · rename_i e heq
        exact Or.inr ⟨e, rfl, heq⟩
      · split
        · exact Or.inl rfl
        · split
          · exact Or.inl rfl
          · exact Or.inl rfl

set_option maxRecDepth 20000 in
/-- C1 counterexample: a run whose global batch deadline elapses (empty
scheduler results) still advances the stored fingerprint: with the stored
hash `"old"` and a changed state, the call dispatches and leaves
`_last_state_hash` different from `"old"` — the `TimeoutError` is caught
inside `_run_observers_parallel`, so `trigger_observers` proceeds to the
`self._last_state_hash = current_hash` line. -/
theorem c1_counterexample :
    timeoutEnv.globalTimeout = true ∧
    (triggerObservers skipConfig timeoutEnv sampleEvent (some "old")).dispatched = true ∧
    (triggerObservers skipConfig timeoutEnv sampleEvent (some "old")).lastStateHash ≠
      some "old" :=
  ⟨rfl, by decide, by decide⟩

/-- C1 amended: if the batch's global deadline elapses during a run of
`trigger_observers`, no partial results are collected — the scheduler returns
the empty list, so nothing is written or resolved and the tool is untouched —
but the stored fingerprint IS advanced to the newly computed hash, and the
call returns `continue`. -/
theorem c1_global_timeout_advances (cfg : ModuleConfig) (env : Env) (event : JVal)
    (lastHash : Option String) (h proto : String)
    (hne : cfg.observers.filter (fun o => o.enabled) ≠ [])
    (hhash : computeStateHash env.md5 env.glob
      (cfg.observers.filter fun o => o.enabled) event = .ok h)
    (hdiff : some h ≠ lastHash)
    (hgt : env.globalTimeout = true)
    (hproto : env.protocolOutcome = .ok proto) :
    triggerObservers cfg env event lastHash =
      ⟨some h, env.tool, .ok continueResult, true⟩ := by
  have hobs : cfg.observers.isEmpty = false := by
    cases hc : cfg.observers with
    | nil => exact absurd (by simp [hc]) hne
    | cons a l => rfl
  have henb : (cfg.observers.filter fun o => o.enabled).isEmpty = false := by
    cases hc : cfg.observers.filter fun o => o.enabled with
    | nil => exact absurd hc hne
    | cons a l => rfl
  have htry : trigTry env cfg.execution.onTimeoutPolicy
      (cfg.observers.filter fun o => o.enabled) = .ok ([], []) := by
    unfold trigTry runObserversParallel
    rw [hproto, hgt]
    rfl
  unfold triggerObservers
  dsimp only
  simp [hobs, henb, hhash, hdiff, htry]

set_option maxRecDepth 20000 in
/-- C1 witness: the concrete global-timeout run advances the stored hash. -/
theorem c1_witness :
    triggerObservers skipConfig timeoutEnv sampleEvent (some "old") =
      ⟨some sampleHash, timeoutEnv.tool, .ok continueResult, true⟩ :=
  c1_global_timeout_advances skipConfig timeoutEnv sampleEvent (some "old") sampleHash
    "protocol" (by intro hc; exact List.noConfusion hc) rfl (by decide) rfl rfl

set_option maxRecDepth 20000 in
/-- C3 counterexample: with `on_timeout = "fail"` and two observers of which
the first times out, the rethrown `TimeoutError` never reaches the batch-wide
exception handler: `asyncio.gather(return_exceptions=True)` captures it as a
value, the scheduler filters it out and keeps the other observer's result,
and the run completes normally, advancing the stored fingerprint. -/
theorem c3_counterexample :
    runObserversParallel noneDecode noneRegex (.ok "protocol") false "fail"
      [secRef, qualRef] [.timedOut, .completed longText] =
      .ok [fallbackResult "observers/quality" longText] ∧
    (triggerObservers failConfig failEnv sampleEvent (some "old")).result =
      .ok continueResult ∧
    (triggerObservers failConfig failEnv sampleEvent (some "old")).lastStateHash ≠
      some "old" :=
  ⟨rfl, rfl, by decide⟩

/-- C3 amended: a per-observer timeout yields the sentinel
`\x7bobservations: [], resolved: [], error: "timeout"\x7d` for that observer only
when `on_timeout == "skip"` (other observers' results are untouched); when
`on_timeout == "fail"` the timeout is rethrown out of the observer task, but
the scheduler's `gather(..., return_exceptions=True)` captures it as a value
and the dict filter drops it, so the other observers' results are kept and
the batch completes normally rather than failing as a whole. -/
theorem c3_timeout_policy :
    (∀ (decode : String → Option JVal) (regexSearch : String → Option String)
        (name : String),
      spawnObserver decode regexSearch "skip" name .timedOut = .ok timeoutSentinel) ∧
    (∀ (decode : String → Option JVal) (regexSearch : String → Option String)
        (name : String),
      spawnObserver decode regexSearch "fail" name .timedOut = .error .timeoutError) ∧
    (∀ (decode : String → Option JVal) (regexSearch : String → Option String)
        (proto : String) (r1 r2 : ObserverRef) (o2 : SpawnOutcome) (d2 : JVal),
      spawnObserver decode regexSearch "fail" r2.observer o2 = .ok d2 →
      runObserversParallel decode regexSearch (.ok proto) false "fail"
        [r1, r2] [.timedOut, o2] = .ok [d2]) ∧
    (∀ (decode : String → Option JVal) (regexSearch : String → Option String)
        (proto : String) (r1 r2 : ObserverRef) (o2 : SpawnOutcome) (d2 : JVal),
      spawnObserver decode regexSearch "skip" r2.observer o2 = .ok d2 →
      runObserversParallel decode regexSearch (.ok proto) false "skip"
        [r1, r2] [.timedOut, o2] = .ok [timeoutSentinel, d2]) := by
  refine ⟨fun _ _ _ => rfl, fun _ _ _ => rfl, ?_, ?_⟩
  · intro decode regexSearch proto r1 r2 o2 d2 hspawn
    have h1 : spawnObserver decode regexSearch "fail" r1.observer .timedOut =
        .error .timeoutError := rfl
    unfold runObserversParallel
    simp [h1, hspawn]
  · intro decode regexSearch proto r1 r2 o2 d2 hspawn
    have h1 : spawnObserver decode regexSearch "skip" r1.observer .timedOut =
        .ok timeoutSentinel := rfl
    unfold runObserversParallel
    simp [h1, hspawn]

set_option maxRecDepth 20000 in
/-- C3 witness: the concrete `on_timeout = "fail"` batch keeps exactly the
completed observer's parsed result. -/
theorem c3_witness :
    runObserversParallel noneDecode noneRegex (.ok "proto") false "fail"
      [secRef, qualRef] [.timedOut, .completed longText] =
      .ok [fallbackResult "observers/quality" longText] :=
  c3_timeout_policy.2.2.1 noneDecode noneRegex "proto" secRef qualRef
    (.completed longText) (fallbackResult "observers/quality" longText) rfl

/-- C2: for a fixed event and environment, two consecutive
`trigger_observers` calls dispatch the batch exactly once: the first call
(new fingerprint differs from the stored one, run succeeds) dispatches and
stores the composite fingerprint; the second call computes an equal
fingerprint and returns `continue` without dispatching, whatever the tool
state became; and in general a call dispatches iff the newly computed
fingerprint differs from the stored one. -/
theorem c2_gate_policy (cfg : ModuleConfig) (env : Env) (event : JVal)
    (s0 : Option String) (h : String) (pr : List JVal × List JVal)
    (hne : cfg.observers.filter (fun o => o.enabled) ≠ [])
    (hhash : computeStateHash env.md5 env.glob
      (cfg.observers.filter fun o => o.enabled) event = .ok h)
    (hdiff : some h ≠ s0)
    (htry : trigTry env cfg.execution.onTimeoutPolicy
      (cfg.observers.filter fun o => o.enabled) = .ok pr) :
    (triggerObservers cfg env event s0).dispatched = true ∧
    (triggerObservers cfg env event s0).lastStateHash = some h ∧
    (∀ tool2 : ToolState,
      triggerObservers cfg
        ⟨env.md5, env.glob, env.decode, env.regexSearch, env.protocolOutcome,
          env.globalTimeout, env.outcomes, tool2⟩ event (some h) =
        ⟨some h, tool2, .ok continueResult, false⟩) ∧
    (∀ s : Option String,
      (triggerObservers cfg env event s).dispatched = true ↔ some h ≠ s) := by
  have hobs : cfg.observers.isEmpty = false := by
    cases hc : cfg.observers with
    | nil => exact absurd (by simp [hc]) hne
    | cons a l => rfl
  have henb : (cfg.observers.filter fun o => o.enabled).isEmpty = false := by
    cases hc : cfg.observers.filter fun o => o.enabled with
    | nil => exact absurd hc hne
    | cons a l => rfl
  obtain ⟨obs, res⟩ := pr
  refine ⟨?_, ?_, ?_, ?_⟩
  · unfold triggerObservers
    dsimp only
    simp [hobs, henb, hhash, hdiff, htry]
  · unfold triggerObservers
    dsimp only
    simp [hobs, henb, hhash, hdiff, htry]
  · intro tool2
    unfold triggerObservers
    dsimp only
    simp [hobs, henb, hhash]
  · intro s
    by_cases hs : some h = s
    · subst hs
      unfold triggerObservers
      dsimp only
      simp [hobs, henb, hhash]
    · unfold triggerObservers
      dsimp only
      simp only [hobs, henb, hhash, Bool.false_eq_true, if_false]
      rw [if_neg hs]
      cases htry2 : trigTry env cfg.execution.onTimeoutPolicy
          (cfg.observers.filter fun o => o.enabled) with
      | error e => simp [htry2, hs]
      | ok pr2 => obtain ⟨o2, r2⟩ := pr2; simp [htry2, hs]

set_option maxRecDepth 20000 in
/-- C2 witness: the two consecutive concrete calls — the first dispatches
and stores the hash, the second returns `continue` without dispatching. -/
theorem c2_witness :
    (triggerObservers skipConfig baseEnv sampleEvent none).dispatched = true ∧
    (triggerObservers skipConfig baseEnv sampleEvent none).lastStateHash =
      some sampleHash ∧
    triggerObservers skipConfig
      ⟨baseEnv.md5, baseEnv.glob, baseEnv.decode, baseEnv.regexSearch,
        baseEnv.protocolOutcome, baseEnv.globalTimeout, baseEnv.outcomes,
        (triggerObservers skipConfig baseEnv sampleEvent none).tool⟩
      sampleEvent (some sampleHash) =
      ⟨some sampleHash, (triggerObservers skipConfig baseEnv sampleEvent none).tool,
        .ok continueResult, false⟩ :=
  have hc2 := c2_gate_policy skipConfig baseEnv sampleEvent none sampleHash ([], [])
    (by intro hc; exact List.noConfusion hc) rfl (by decide) rfl
  ⟨hc2.1, hc2.2.1, hc2.2.2.1 (triggerObservers skipConfig baseEnv sampleEvent none).tool⟩

theorem strTake_length (s : String) (n : Nat) :
    (strTake s n).length = min n s.length :=
  List.length_take n s.data

theorem exbind_ok {α β : Type} (a : α) (f : α → Except PyErr β) :
    (Except.ok a >>= f : Except PyErr β) = f a := rfl

theorem exmap_ok {α β : Type} (a : α) (f : α → β) :
    (f <$> (Except.ok a : Except PyErr α) : Except PyErr β) = Except.ok (f a) := rfl

theorem intercalate_singleton (sep x : String) : String.intercalate sep [x] = x := rfl

set_option maxRecDepth 20000 in
/-- C4 amended: for every review content, every protocol text containing the
`\x7b\x7bexisting_observations\x7d\x7d` placeholder and every nonempty set of open
observations (whose bullet lines render without error), the previous-issues
block is substituted at the placeholder's position — the protocol part of the
prompt is the placeholder-substituted protocol — AND the block is still
emitted between the review content and the protocol, so the assembled prompt
carries it twice. -/
theorem c4_block_substituted_and_appended (content protocol : String)
    (existingObservations : List JVal) (bulletLines : List String)
    (hlines : existingObservations.mapM existingObsLine = .ok bulletLines)
    (hne : existingObservations.isEmpty = false)
    (hph : strContainsSub protocol placeholderToken = true) :
    buildObserverPrompt content existingObservations (some protocol) =
      .ok ("## Content to Review\n\n" ++ content ++ "\n" ++
        existingSectionOf (String.intercalate "\n" bulletLines) ++ "\n" ++
        pyReplace protocol placeholderToken
          (existingSectionOf (String.intercalate "\n" bulletLines)) ++ "\n") := by
  have hpne : protocol.data.isEmpty = false := by
    cases hd : protocol.data with
    | nil =>
        exfalso
        rw [strContainsSub, countOccs, hd] at hph
        simp [countOccsGo] at hph
    | cons c rest => rfl
  unfold buildObserverPrompt
  rw [hne]
  simp only [Bool.false_eq_true, if_false, hlines, exbind_ok, hpne, hph, if_true]
  rfl

set_option maxRecDepth 20000 in
/-- C4 witness: the general substituted-and-appended shape at a concrete
content, observation and placeholder-bearing protocol. -/
theorem c4_witness :
    buildObserverPrompt "print(1)" [sampleObs] (some rulesProtocol) =
      .ok ("## Content to Review\n\nprint(1)\n" ++
        existingSectionOf (String.intercalate "\n"
          ["- id=`obs-1` [high] a.py:3: eval used"]) ++ "\n" ++
        pyReplace rulesProtocol placeholderToken
          (existingSectionOf (String.intercalate "\n"
            ["- id=`obs-1` [high] a.py:3: eval used"])) ++ "\n") :=
  c4_block_substituted_and_appended "print(1)" rulesProtocol [sampleObs]
    ["- id=`obs-1` [high] a.py:3: eval used"] rfl rfl (by decide)

theorem collectFileEntries_single_over (maxSize : Nat) (path content : String)
    (h : content.length > maxSize) :
    collectFileEntries maxSize 0 [(path, content)] =
      [(path, strTake content maxSize ++ "\n... [truncated]")] := by
  have hcut : (strTake content maxSize ++ "\n... [truncated]").length = maxSize + 16 := by
    rw [String.length_append, strTake_length, Nat.min_eq_left (Nat.le_of_lt h)]
    rfl
  unfold collectFileEntries
  dsimp only
  rw [Nat.sub_zero, if_pos h, if_pos (by rw [Nat.zero_add, hcut]; omega)]

theorem renderFilePart_length (path content : String) :
    (renderFilePart path content).length =
      ("### " ++ path ++ "\n```\n").length + content.length + 4 := by
  unfold renderFilePart
  rw [String.length_append, String.length_append]
  rfl

/-- C6 counterexample: a single file of 50,001 characters yields a files
payload of 50,033 characters — the included content is cut to the 50,000
budget, but the truncation marker, the `### path` header and the code fences
push the payload past 50,000. -/
theorem c6_counterexample :
    (getFileContent [("a.py", bigContent)]).length = 50033 ∧
    50000 < (getFileContent [("a.py", bigContent)]).length := by
  have hb : bigContent.length = 50001 := by
    show (List.replicate 50001 'a').length = 50001
    exact List.length_replicate 50001 'a'
  have hcol := collectFileEntries_single_over 50000 "a.py" bigContent (by rw [hb]; omega)
  have hcut : (strTake bigContent 50000 ++ "\n... [truncated]").length = 50016 := by
    rw [String.length_append, strTake_length, hb, Nat.min_eq_left (by omega)]
    rfl
  have hlen : (getFileContent [("a.py", bigContent)]).length = 50033 := by
    unfold getFileContent getFileContentSized
    rw [hcol]
    simp only [List.map_cons, List.map_nil, intercalate_singleton]
    rw [renderFilePart_length, hcut]
    rfl
  exact ⟨hlen, by rw [hlen]; omega⟩

/-- C6 amended: the collector caps the INCLUDED file text, not the payload
string: the total length of included per-file content (with truncation
markers counted) never exceeds the remaining budget plus the 16-character
marker, a file that would exceed the budget is cut to it and marked, and no
further files are read — but the payload adds headers and fences on top
(see the counterexample).  The conversation payload covers only the last 20
messages, and a message content longer than 2,000 characters is rendered cut
to 2,000 characters with the truncation marker. -/
theorem c6_bounded_payloads :
    (∀ (maxSize total : Nat) (files : List (String × String)), total ≤ maxSize →
      includedLengthSum (collectFileEntries maxSize total files) ≤ (maxSize - total) + 16) ∧
    (∀ (pre msgs : List JVal) (itc ir : Bool), msgs.length = 20 →
      getConversationContent (.obj [("messages", .arr (pre ++ msgs))]) itc ir =
        getConversationContent (.obj [("messages", .arr msgs)]) itc ir) ∧
    (∀ c : String, 2000 < c.length →
      getConversationContent (.obj [("messages",
        .arr [.obj [("role", .str "user"), ("content", .str c)]])]) true true =
        .ok ("**user**: " ++ (strTake c 2000 ++ "... [truncated]"))) := by
  refine ⟨?_, ?_, ?_⟩
  · intro maxSize total files
    induction files generalizing total with
    | nil => intro _; simp [collectFileEntries, includedLengthSum]
    | cons pc rest ih =>
        intro hle
        obtain ⟨path, content⟩ := pc
        unfold collectFileEntries
        dsimp only
        by_cases hbig : content.length > maxSize - total
        · rw [if_pos hbig]
          have hlen : (strTake content (maxSize - total) ++ "\n... [truncated]").length =
              (maxSize - total) + 16 := by
            rw [String.length_append, strTake_length,
              Nat.min_eq_left (Nat.le_of_lt hbig)]
            rfl
          rw [if_pos (by rw [hlen]; omega)]
          simp [includedLengthSum, hlen]
        · rw [if_neg hbig]
          push_neg at hbig
          by_cases hstop : total + content.length ≥ maxSize
          · rw [if_pos hstop]
            simp only [includedLengthSum, List.map_cons, List.map_nil, List.sum_cons,
              List.sum_nil]
            omega
          · rw [if_neg hstop]
            have hrec := ih (total + content.length) (by omega)
            simp only [includedLengthSum, List.map_cons, List.sum_cons] at hrec ⊢
            omega
  · intro pre msgs itc ir hlen
    have hrfl : ∀ (xs : List JVal) (itc2 ir2 : Bool),
        getConversationContent (.obj [("messages", .arr xs)]) itc2 ir2 =
          convRender itc2 (xs.drop (xs.length - 20)) := fun _ _ _ => rfl
    have h1 : (pre ++ msgs).drop ((pre ++ msgs).length - 20) = msgs := by
      rw [List.length_append, hlen]
      have h20 : pre.length + 20 - 20 = pre.length := by omega
      rw [h20, List.drop_left]
    have h2 : msgs.drop (msgs.length - 20) = msgs := by
      rw [hlen]
      simp
    rw [hrfl, hrfl, h1, h2]
  · intro c hc
    have hgt : 2000 < c.length := hc
    have hrfl : getConversationContent (.obj [("messages",
        .arr [.obj [("role", .str "user"), ("content", .str c)]])]) true true =
        convRender true [.obj [("role", .str "user"), ("content", .str c)]] := rfl
    have e1 : pyGetD (.obj [("role", .str "user"), ("content", .str c)]) "role"
        (.str "unknown") = .ok (.str "user") := rfl
    have e2 : pyGetD (.obj [("role", .str "user"), ("content", .str c)]) "content"
        (.str "") = .ok (.str c) := rfl
    have e3 : pyEqStr (.str "user") "tool" = false := rfl
    have e4 : pyLen (.str c) = Except.ok c.length := rfl
    have e5 : pySliceTake (.str c) 2000 =
        Except.ok (.str (String.mk (c.data.take 2000))) := rfl
    have hline : convLine true [] (.obj [("role", .str "user"), ("content", .str c)]) =
        .ok ["**user**: " ++ (strTake c 2000 ++ "... [truncated]")] := by
      unfold convLine
      rw [e1]
      simp only [exbind_ok]
      rw [e2]
      simp only [exbind_ok, e3, Bool.false_and, Bool.false_eq_true, if_false, e4]
      rw [if_pos hgt]
      rw [e5]
      simp only [exbind_ok]
      rfl
    rw [hrfl]
    unfold convRender
    simp only [List.foldlM, hline, exbind_ok]
    rfl

/-- C6 witness: the bound, the last-20 restriction and the per-message
truncation at concrete inputs. -/
theorem c6_witness :
    includedLengthSum (collectFileEntries 50000 0 [("a.py", "print(1)")]) ≤
      50000 - 0 + 16 ∧
    getConversationContent (.obj [("messages",
      .arr ([plainMsg] ++ List.replicate 20 plainMsg))]) true true =
      getConversationContent (.obj [("messages",
        .arr (List.replicate 20 plainMsg))]) true true ∧
    getConversationContent (.obj [("messages",
      .arr [.obj [("role", .str "user"), ("content", .str longMsgContent)]])]) true true =
      .ok ("**user**: " ++ (strTake longMsgContent 2000 ++ "... [truncated]")) :=
  ⟨c6_bounded_payloads.1 50000 0 [("a.py", "print(1)")] (by omega),
   c6_bounded_payloads.2.1 [plainMsg] (List.replicate 20 plainMsg) true true
     (by rw [List.length_replicate]),
   c6_bounded_payloads.2.2 longMsgContent (by
     show 2000 < (List.replicate 2001 'z').length
     rw [List.length_replicate]
     omega)⟩

theorem exbind_err {α β : Type} (e : PyErr) (f : α → Except PyErr β) :
    (Except.error e >>= f : Except PyErr β) = .error e := rfl

theorem observationKey_ok_obj (md5 : String → String) (obs : JVal) (k : String)
    (h : observationKey md5 obs = .ok k) : ∃ fs, obs = .obj fs := by
  cases obs with
  | obj fs => exact ⟨fs, rfl⟩
  | null => exact Except.noConfusion h
  | bool b => exact Except.noConfusion h
  | num n => exact Except.noConfusion h
  | str s => exact Except.noConfusion h
  | arr xs => exact Except.noConfusion h

theorem mapKeys_elem (md5 : String → String) (xs : List JVal) (ks : List String)
    (h : mapKeys md5 xs = .ok ks) :
    ∀ x ∈ xs, ∃ k, observationKey md5 x = .ok k := by
  induction xs generalizing ks with
  | nil => intro x hx; cases hx
  | cons o rest ih =>
      unfold mapKeys at h
      cases hk : observationKey md5 o with
      | error e => rw [hk] at h; exact absurd h (by simp [exbind_err])
      | ok k =>
          rw [hk] at h
          simp only [exbind_ok] at h
          cases hrest : mapKeys md5 rest with
          | error e => rw [hrest] at h; exact absurd h (by simp [exbind_err])
          | ok ks' =>
              rw [hrest] at h
              intro x hx
              rcases List.mem_cons.mp hx with rfl | hx'
              · exact ⟨k, hk⟩
              · exact ih ks' hrest x hx'

theorem mapKeys_append (md5 : String → String) (xs ys : List JVal) (a b : List String)
    (hx : mapKeys md5 xs = .ok a) (hy : mapKeys md5 ys = .ok b) :
    mapKeys md5 (xs ++ ys) = .ok (a ++ b) := by
  induction xs generalizing a with
  | nil =>
      unfold mapKeys at hx
      cases hx
      simpa using hy
  | cons o rest ih =>
      simp only [List.cons_append]
      unfold mapKeys at hx ⊢
      cases hk : observationKey md5 o with
      | error e => rw [hk] at hx; exact absurd hx (by simp [exbind_err])
      | ok k =>
          rw [hk] at hx
          simp only [exbind_ok] at hx ⊢
          cases hrest : mapKeys md5 rest with
          | error e => rw [hrest] at hx; exact absurd hx (by simp [exbind_err])
          | ok ks =>
              rw [hrest] at hx
              simp only [exbind_ok] at hx
              replace hx : k :: ks = a := Except.ok.inj hx
              subst hx
              rw [ih ks hrest]
              simp only [exbind_ok, List.cons_append]
              rfl

theorem mapKeys_map_setStatusOpen (md5 : String → String) (xs : List JVal) :
    mapKeys md5 (xs.map setStatusOpen) = mapKeys md5 xs := by
  induction xs with
  | nil => rfl
  | cons o rest ih =>
      rw [List.map_cons]
      unfold mapKeys
      rw [observationKey_setStatusOpen, ih]

theorem listOpen_append (s t : List JVal) :
    listOpen (s ++ t) = listOpen s ++ listOpen t := by
  simp [listOpen, List.filter_append]

theorem listOpen_map_setStatusOpen_of_obj (xs : List JVal)
    (h : ∀ x ∈ xs, ∃ fs, x = JVal.obj fs) :
    listOpen (xs.map setStatusOpen) = xs.map setStatusOpen := by
  unfold listOpen
  rw [List.filter_eq_self]
  intro a ha
  obtain ⟨x, hx, rfl⟩ := List.mem_map.mp ha
  obtain ⟨fs, rfl⟩ := h x hx
  simp [setStatusOpen, obsStatus, objGetD, objGet?_objSet_self, pyEqStr]

theorem filterNewAux_sound (md5 : String → String) (ekeys : List String)
    (B new : List JVal) (h : filterNewAux md5 ekeys B = .ok new) :
    ∀ b ∈ B, ∃ k, observationKey md5 b = .ok k ∧
      (k ∈ ekeys ∨ ∃ n ∈ new, observationKey md5 n = .ok k) := by
  induction B generalizing new with
  | nil => intro b hb; cases hb
  | cons o rest ih =>
      unfold filterNewAux at h
      cases hk : observationKey md5 o with
      | error e => rw [hk] at h; exact absurd h (by simp [exbind_err])
      | ok k =>
          rw [hk] at h
          simp only [exbind_ok] at h
          cases hrest : filterNewAux md5 ekeys rest with
          | error e => rw [hrest] at h; exact absurd h (by simp [exbind_err])
          | ok ns =>
              rw [hrest] at h
              simp only [exbind_ok] at h
              replace h : (if ekeys.contains k then ns else o :: ns) = new :=
                Except.ok.inj h
              intro b hb
              rcases List.mem_cons.mp hb with rfl | hb'
              · refine ⟨k, hk, ?_⟩
                by_cases hc : ekeys.contains k
                · exact Or.inl (List.mem_of_elem_eq_true hc)
                · refine Or.inr ⟨b, ?_, hk⟩
                  rw [← h, if_neg hc]
                  exact List.mem_cons_self b ns
              · obtain ⟨k', hk', hor⟩ := ih ns hrest b hb'
                refine ⟨k', hk', ?_⟩
                rcases hor with hin | ⟨n, hn, hkn⟩
                · exact Or.inl hin
                · refine Or.inr ⟨n, ?_, hkn⟩
                  rw [← h]
                  by_cases hc : ekeys.contains k
                  · rwa [if_pos hc]
                  · rw [if_neg hc]
                    exact List.mem_cons_of_mem o hn

theorem filterNewAux_keys (md5 : String → String) (ekeys : List String)
    (B new : List JVal) (h : filterNewAux md5 ekeys B = .ok new) :
    ∃ ks, mapKeys md5 new = .ok ks ∧
      ∀ n ∈ new, ∀ k, observationKey md5 n = .ok k → k ∈ ks := by
  induction B generalizing new with
  | nil =>
      unfold filterNewAux at h
      cases h
      exact ⟨[], rfl, fun n hn => absurd hn (List.not_mem_nil n)⟩
  | cons o rest ih =>
      unfold filterNewAux at h
      cases hk : observationKey md5 o with
      | error e => rw [hk] at h; exact absurd h (by simp [exbind_err])
      | ok k =>
          rw [hk] at h
          simp only [exbind_ok] at h
          cases hrest : filterNewAux md5 ekeys rest with
          | error e => rw [hrest] at h; exact absurd h (by simp [exbind_err])
          | ok ns =>
              rw [hrest] at h
              simp only [exbind_ok] at h
              replace h : (if ekeys.contains k then ns else o :: ns) = new :=
                Except.ok.inj h
              obtain ⟨ks, hks, hmem⟩ := ih ns hrest
              by_cases hc : ekeys.contains k
              · rw [if_pos hc] at h
                subst h
                exact ⟨ks, hks, hmem⟩
              · rw [if_neg hc] at h
                subst h
                refine ⟨k :: ks, ?_, ?_⟩
                · unfold mapKeys
                  rw [hk, hks]
                  rfl
                · intro n hn k0 hk0
                  rcases List.mem_cons.mp hn with rfl | hn'
                  · rw [hk] at hk0
                    cases hk0
                    exact List.mem_cons_self k ks
                  · exact List.mem_cons_of_mem k (hmem n hn' k0 hk0)

theorem filterNewAux_all_mem (md5 : String → String) (ekeys : List String)
    (B : List JVal)
    (h : ∀ b ∈ B, ∃ k, observationKey md5 b = .ok k ∧ k ∈ ekeys) :
    filterNewAux md5 ekeys B = .ok [] := by
  induction B with
  | nil => rfl
  | cons o rest ih =>
      obtain ⟨k, hk, hmem⟩ := h o (List.mem_cons_self o rest)
      unfold filterNewAux
      rw [hk]
      simp only [exbind_ok]
      rw [ih (fun b hb => h b (List.mem_cons_of_mem o hb))]
      simp only [exbind_ok]
      rw [if_pos (List.elem_eq_true_of_mem hmem)]
      rfl

/-- C8: writing a batch is idempotent.  On an available store, a first
`_write_observations` call leaves some store `s1`, and repeating the same
batch against `s1` changes nothing and issues no `create_batch` call; and
whenever every incoming observation's key is already among the open
observations' keys, no `create_batch` call is issued at all. -/
theorem c8_write_idempotent (md5 : String → String) (store B : List JVal) :
    (∃ s1, (writeObservations md5 (.available store) B).tool = .available s1 ∧
      writeObservations md5 (.available s1) B = ⟨.available s1, none⟩) ∧
    (∀ ekeys, mapKeys md5 (listOpen store) = .ok ekeys →
      (∀ b ∈ B, ∃ k, observationKey md5 b = .ok k ∧ k ∈ ekeys) →
      writeObservations md5 (.available store) B = ⟨.available store, none⟩) := by
  constructor
  · cases hw : writeFilterNew md5 (listOpen store) B with
    | error e =>
        refine ⟨store, ?_, ?_⟩
        · unfold writeObservations
          dsimp only
          rw [hw]
        · unfold writeObservations
          dsimp only
          rw [hw]
    | ok new =>
        cases new with
        | nil =>
            refine ⟨store, ?_, ?_⟩
            · unfold writeObservations
              dsimp only
              rw [hw]
            · unfold writeObservations
              dsimp only
              rw [hw]
        | cons n0 ns =>
            refine ⟨createBatch store (n0 :: ns), ?_, ?_⟩
            · unfold writeObservations
              dsimp only
              rw [hw]
            · unfold writeObservations
              dsimp only
              unfold writeFilterNew at hw
              cases hm : mapKeys md5 (listOpen store) with
              | error e => rw [hm] at hw; exact absurd hw (by simp [exbind_err])
              | ok ekeys =>
                  rw [hm] at hw
                  simp only [exbind_ok] at hw
                  have hobjs : ∀ n ∈ (n0 :: ns), ∃ fs, n = JVal.obj fs := by
                    obtain ⟨ks, hks, _⟩ := filterNewAux_keys md5 ekeys B (n0 :: ns) hw
                    intro n hn
                    obtain ⟨k, hk⟩ := mapKeys_elem md5 (n0 :: ns) ks hks n hn
                    exact observationKey_ok_obj md5 n k hk
                  have hopen : listOpen (createBatch store (n0 :: ns)) =
                      listOpen store ++ (n0 :: ns).map setStatusOpen := by
                    unfold createBatch
                    rw [listOpen_append, listOpen_map_setStatusOpen_of_obj _ hobjs]
                  obtain ⟨ks, hks, hksmem⟩ := filterNewAux_keys md5 ekeys B (n0 :: ns) hw
                  have hmk2 : mapKeys md5 (listOpen (createBatch store (n0 :: ns))) =
                      .ok (ekeys ++ ks) := by
                    rw [hopen]
                    exact mapKeys_append md5 _ _ _ _ hm
                      (by rw [mapKeys_map_setStatusOpen]; exact hks)
                  have h2 : writeFilterNew md5
                      (listOpen (createBatch store (n0 :: ns))) B = .ok [] := by
                    unfold writeFilterNew
                    rw [hmk2]
                    simp only [exbind_ok]
                    apply filterNewAux_all_mem
                    intro b hb
                    obtain ⟨k, hk, hor⟩ := filterNewAux_sound md5 ekeys B (n0 :: ns) hw b hb
                    refine ⟨k, hk, ?_⟩
                    rcases hor with hin | ⟨n, hn, hkn⟩
                    · exact List.mem_append.mpr (Or.inl hin)
                    · exact List.mem_append.mpr (Or.inr (hksmem n hn k hkn))
                  rw [h2]
  · intro ekeys hm hall
    unfold writeObservations writeFilterNew
    dsimp only
    rw [hm]
    simp only [exbind_ok]
    rw [filterNewAux_all_mem md5 ekeys B hall]

set_option maxRecDepth 20000 in
/-- C8 witness: when the single incoming observation's key is already open
in the store, no `create_batch` call is issued and the store is unchanged. -/
theorem c8_witness :
    writeObservations idHash (.available (createBatch [] [fileObs])) [fileObs] =
      ⟨.available (createBatch [] [fileObs]), none⟩ :=
  (c8_write_idempotent idHash (createBatch [] [fileObs]) [fileObs]).2
    ["Sec:file:a.py:1:critical"] rfl
    (by
      intro b hb
      rw [List.mem_singleton] at hb
      subst hb
      exact ⟨"Sec:file:a.py:1:critical", rfl, by decide⟩)
